import Mathlib

/- Verification of the per-term document scoring engine
   (src/query/term_query/term_scorer.rs): the TermScorer integration
   component together with models of its collaborators (posting cursor,
   field-length reader, BM25 relevance weight), which are specified only
   at their interface boundary. -/

namespace TantivySpec

/-- Sentinel document id marking an exhausted iterator (`TERMINATED`). -/
def TERMINATED : Nat := 2147483647

/-- Modelled from the spec: decoding of the exponential part of the fieldnorm
byte code (3-bit mantissa with an implicit leading bit), the standard monotonic
byte-range encoding whose exact values reproduce the literal fixture numbers. -/
def int4ToLong (i : Nat) : Nat :=
  let bits := i &&& 7
  let shift := i >>> 3
  if shift = 0 then bits else (bits ||| 8) <<< (shift - 1)

/-- Number of binary digits of `n` (with enough fuel for 64-bit values),
written with structural recursion so that it reduces inside the kernel. -/
def bitSizeAux : Nat → Nat → Nat
  | 0, _ => 0
  | fuel + 1, n => if n = 0 then 0 else bitSizeAux fuel (n / 2) + 1

def bitSize (n : Nat) : Nat := bitSizeAux 64 n

/-- Modelled from the spec: encoding of the exponential part of the fieldnorm
byte code; values below 8 are kept exact. -/
def longToInt4 (i : Nat) : Nat :=
  if i < 8 then i
  else
    let shift := bitSize i - 4
    ((i >>> shift) &&& 7) ||| ((shift + 1) <<< 3)

/-- Modelled from the spec: lossy monotonic quantization of a true field length
into a norm id; lengths below 24 are encoded exactly. -/
def fieldnorm_to_id (fieldnorm : Nat) : Nat :=
  if fieldnorm < 24 then fieldnorm else 24 + longToInt4 (fieldnorm - 24)

/-- Modelled from the spec: decoding of a norm id back to the approximate field
length used inside the BM25 score. -/
def id_to_fieldnorm (id : Nat) : Nat :=
  if id < 24 then id else 24 + int4ToLong (id - 24)

/-- Modelled from the spec: the Field-Length Reader, a read-only per-document
array of norm ids, loaded before scoring begins. -/
structure FieldNormReader where
  norms : List Nat

/-- Modelled from the spec: `fieldnorm_id(doc)` fails only on out-of-range
document ids (a programming error, not a runtime condition). -/
def FieldNormReader.fieldnorm_id (r : FieldNormReader) (doc : Nat) : Option Nat :=
  r.norms.get? doc

/-- Modelled from the spec: building a reader from true field lengths quantizes
each length into its norm id. -/
def FieldNormReader.from_lengths (lengths : List Nat) : FieldNormReader :=
  ⟨lengths.map fieldnorm_to_id⟩

/-- Modelled from the spec: postings are organized internally in fixed-size
blocks for decoding efficiency. -/
def COMPRESSION_BLOCK_SIZE : Nat := 128

/-- Modelled from the spec: the Posting Iterator, a forward-only seekable
cursor over the sorted (document id, term frequency) pairs of one term. -/
structure SegmentPostings where
  postings : List (Nat × Nat)
  cursor : Nat

/-- Current document id, or the sentinel once the cursor has run past the end. -/
def SegmentPostings.doc (p : SegmentPostings) : Nat :=
  match p.postings.get? p.cursor with
  | some q => q.1
  | none => TERMINATED

/-- Term frequency at the current document (unspecified junk once exhausted). -/
def SegmentPostings.term_freq (p : SegmentPostings) : Nat :=
  (p.postings.getD p.cursor (0, 1)).2

/-- Modelled from the spec: `advance` moves to the next matching document in
ascending order and keeps returning the sentinel once exhausted. -/
def SegmentPostings.advance (p : SegmentPostings) : Nat × SegmentPostings :=
  let c := if p.cursor < p.postings.length then p.cursor + 1 else p.cursor
  let p2 : SegmentPostings := ⟨p.postings, c⟩
  (p2.doc, p2)

/-- Number of leading postings of `l` whose document id is below `target`. -/
def seekSkip (l : List (Nat × Nat)) (target : Nat) : Nat :=
  match l with
  | [] => 0
  | q :: rest => if q.1 < target then seekSkip rest target + 1 else 0

/-- Modelled from the spec: `seek(target)` advances to the first matching
document whose id is at least `target`, never moving backwards. -/
def SegmentPostings.seek (p : SegmentPostings) (target : Nat) : Nat × SegmentPostings :=
  let p2 : SegmentPostings := ⟨p.postings, p.cursor + seekSkip (p.postings.drop p.cursor) target⟩
  (p2.doc, p2)

/-- Modelled from the spec: approximate remaining-document count, here the
term's document frequency. -/
def SegmentPostings.size_hint (p : SegmentPostings) : Nat := p.postings.length

def SegmentPostings.doc_freq (p : SegmentPostings) : Nat := p.postings.length

/-- Modelled from the spec: an in-memory postings cursor positioned at the
first matching document. -/
def SegmentPostings.create_from_docs_and_tfs (dts : List (Nat × Nat)) : SegmentPostings :=
  ⟨dts, 0⟩

/-- BM25 saturation constant k1 = 1.2. -/
def K1 : ℚ := 6 / 5

/-- BM25 length-normalization constant b = 0.75. -/
def B : ℚ := 3 / 4

/-- Modelled from the spec: the immutable per-term Relevance Weight, holding
the idf-derived coefficient (query boost folded in) and the average field
length of the corpus. -/
structure BM25Weight where
  weight : ℝ
  average_fieldnorm : ℚ

/-- Modelled from the spec: the BM25 term-frequency and length-normalization
factor `tf * (k1 + 1) / (tf + k1 * (1 - b + b * fieldnorm / avg))`, where the
fieldnorm is decoded from the norm id. -/
def tfFactor (avg : ℚ) (fieldnorm_id tf : Nat) : ℚ :=
  let fieldnorm : ℚ := (id_to_fieldnorm fieldnorm_id : ℚ)
  let norm := K1 * (1 - B + B * fieldnorm / avg)
  (tf : ℚ) * (K1 + 1) / ((tf : ℚ) + norm)

def BM25Weight.tf_factor (w : BM25Weight) (fid tf : Nat) : ℚ :=
  tfFactor w.average_fieldnorm fid tf

/-- Modelled from the spec: `score(norm_id, term_freq)` multiplies the
idf-derived coefficient with the term-frequency/length factor. -/
noncomputable def BM25Weight.score (w : BM25Weight) (fid tf : Nat) : ℝ :=
  w.weight * ((w.tf_factor fid tf : ℚ) : ℝ)

/-- Modelled from the spec: the global score upper bound for the term, the
score at the largest representable fieldnorm and a term frequency equal to it
(this reproduces the literal fixture number of the spec). -/
noncomputable def BM25Weight.max_score (w : BM25Weight) : ℝ :=
  w.score 255 2013265944

/-- Modelled from the spec: idf coefficient
`ln(1 + (N - df + 0.5) / (df + 0.5))`. -/
noncomputable def idf (df n : Nat) : ℝ :=
  Real.log (1 + ((n : ℝ) - (df : ℝ) + 1 / 2) / ((df : ℝ) + 1 / 2))

/-- Modelled from the spec: weight construction from the term's document
frequency, the corpus size and the average field length (boost 1). -/
noncomputable def BM25Weight.for_one_term (df n : Nat) (avg : ℚ) : BM25Weight :=
  ⟨idf df n, avg⟩

/-- Modelled from the spec: an Explanation carries the same numeric total as
`score` together with the multiplicative factors, purely a decomposition. -/
structure Explanation where
  value : ℝ
  details : List ℝ

noncomputable def BM25Weight.explain (w : BM25Weight) (fid tf : Nat) : Explanation :=
  ⟨w.score fid tf, [w.weight, ((w.tf_factor fid tf : ℚ) : ℝ)]⟩

/-- The TermScorer of the source: owns a posting cursor and holds a
field-length reader and a relevance weight. -/
structure TermScorer where
  postings : SegmentPostings
  fieldnorm_reader : FieldNormReader
  similarity_weight : BM25Weight

def TermScorer.new (p : SegmentPostings) (r : FieldNormReader) (w : BM25Weight) :
    TermScorer :=
  ⟨p, r, w⟩

def TermScorer.doc (s : TermScorer) : Nat := s.postings.doc

def TermScorer.advance (s : TermScorer) : Nat × TermScorer :=
  let r := s.postings.advance
  (r.1, { s with postings := r.2 })

def TermScorer.seek (s : TermScorer) (target : Nat) : Nat × TermScorer :=
  let r := s.postings.seek target
  (r.1, { s with postings := r.2 })

def TermScorer.size_hint (s : TermScorer) : Nat := s.postings.size_hint

def TermScorer.term_freq (s : TermScorer) : Nat := s.postings.term_freq

def TermScorer.doc_freq (s : TermScorer) : Nat := s.postings.doc_freq

def TermScorer.fieldnorm_id (s : TermScorer) : Option Nat :=
  s.fieldnorm_reader.fieldnorm_id s.doc

noncomputable def TermScorer.explain (s : TermScorer) : Option Explanation :=
  s.fieldnorm_id.map (fun fid => s.similarity_weight.explain fid s.term_freq)

noncomputable def TermScorer.max_score (s : TermScorer) : ℝ :=
  s.similarity_weight.max_score

/-- The source's `score(&mut self)`: reads the current fieldnorm id and term
frequency and delegates to the weight; the body performs no mutation, so the
embedded state-passing function returns the state unchanged. -/
noncomputable def TermScorer.score (s : TermScorer) : Option ℝ × TermScorer :=
  (s.fieldnorm_id.map (fun fid => s.similarity_weight.score fid s.term_freq), s)

/-- The postings of the fixed-size decode block containing the cursor. -/
def blockSlice (p : SegmentPostings) : List (Nat × Nat) :=
  (p.postings.drop (p.cursor / COMPRESSION_BLOCK_SIZE * COMPRESSION_BLOCK_SIZE)).take
    COMPRESSION_BLOCK_SIZE

/-- Modelled from the spec: the block-local score bound, an upper bound on the
score of every document of the current decode block. -/
noncomputable def blockMaxVal (p : SegmentPostings) (r : FieldNormReader)
    (w : BM25Weight) : ℝ :=
  ((blockSlice p).map (fun q => w.score ((r.fieldnorm_id q.1).getD 0) q.2)).foldr max 0

/-- The source's `block_max_score(&mut self)`: delegates to the block cursor
with the reader and the weight; no cursor movement. -/
noncomputable def TermScorer.block_max_score (s : TermScorer) : ℝ × TermScorer :=
  (blockMaxVal s.postings s.fieldnorm_reader s.similarity_weight, s)

/-- The source's test constructor: postings from the (doc, tf) pairs, and a
fieldnorm array of size `last doc + 1` holding each document's length. -/
def buildFieldnorms (dts : List (Nat × Nat)) (vals : List Nat) : List Nat :=
  let maxDoc := (dts.getLast?.getD (0, 0)).1 + 1
  (dts.zip vals).foldl (fun arr q => arr.set q.1.1 q.2) (List.replicate maxDoc 0)

def TermScorer.create_for_test (dts : List (Nat × Nat)) (vals : List Nat)
    (w : BM25Weight) : TermScorer :=
  TermScorer.new (SegmentPostings.create_from_docs_and_tfs dts)
    (FieldNormReader.from_lengths (buildFieldnorms dts vals)) w

/-- Well-formed postings: document ids strictly sorted and below the sentinel. -/
def SegmentPostings.wf (p : SegmentPostings) : Prop :=
  List.Pairwise (fun a b => a.1 < b.1) p.postings ∧ ∀ q ∈ p.postings, q.1 < TERMINATED

/-- Well-formed reader: every stored norm id fits in a byte. -/
def FieldNormReader.wf (r : FieldNormReader) : Prop := ∀ n ∈ r.norms, n ≤ 255

/-- Well-formed scorer: postings and reader well formed, and every posting's
document id within the reader's range. -/
def TermScorer.wf (s : TermScorer) : Prop :=
  s.postings.wf ∧ s.fieldnorm_reader.wf ∧
    ∀ q ∈ s.postings.postings, q.1 < s.fieldnorm_reader.norms.length

/-- A DocSet operation issued by the query executor. -/
inductive Op
| advance : Op
| seek (target : Nat) : Op

def TermScorer.step (s : TermScorer) : Op → Nat × TermScorer
  | Op.advance => s.advance
  | Op.seek t => s.seek t

/-- The document ids returned by a sequence of advance/seek calls. -/
def runOutputs : TermScorer → List Op → List Nat
  | _, [] => []
  | s, op :: rest =>
    let r := s.step op
    r.1 :: runOutputs r.2 rest

/-- The reference fixture weight: document frequency 3, corpus size 6,
average field length 10. -/
noncomputable def fixtureWeight : BM25Weight := BM25Weight.for_one_term 3 6 10

/-- The reference fixture scorer of the source's test. -/
noncomputable def fixtureScorer : TermScorer :=
  TermScorer.create_for_test [(2, 3), (3, 12), (7, 8)] [10, 12, 100] fixtureWeight

end TantivySpec

namespace TantivySpec

/-- CLAIM C1: at a matching position, `score()` returns exactly
`weight.score(field_reader.fieldnorm_id(doc()), postings.term_freq())`,
re-reading both collaborators on every call and leaving the state alone. -/
theorem C1_score_recomputed_each_call (s : TermScorer) :
    (TermScorer.score s).1 =
      (s.fieldnorm_reader.fieldnorm_id s.postings.doc).map
        (fun n => s.similarity_weight.score n s.postings.term_freq) ∧
    (TermScorer.score s).2 = s :=
  ⟨rfl, rfl⟩

/-- CLAIM C5: the total value of the Explanation returned by `explain()` is
numerically equal to `score()` at the same position; at the weight level the
explanation's value is exactly `score(norm_id, term_freq)`. -/
theorem C5_explain_total_eq_score (s : TermScorer) (w : BM25Weight) (n tf : Nat) :
    (w.explain n tf).value = w.score n tf ∧
    (TermScorer.explain s).map Explanation.value = (TermScorer.score s).1 := by
  refine ⟨rfl, ?_⟩
  cases h : s.fieldnorm_id <;>
    simp [TermScorer.explain, TermScorer.score, h, BM25Weight.explain]

/-- CLAIM C7: `advance`, `seek`, `doc` and `size_hint` are pure pass-throughs
to the posting cursor: they return exactly the cursor's result, the new
postings state is exactly the cursor's new state, and the reader and weight
are untouched. -/
theorem C7_docset_passthrough (s : TermScorer) (target : Nat) :
    (TermScorer.advance s).1 = s.postings.advance.1 ∧
    (TermScorer.advance s).2.postings = s.postings.advance.2 ∧
    (TermScorer.advance s).2.fieldnorm_reader = s.fieldnorm_reader ∧
    (TermScorer.advance s).2.similarity_weight = s.similarity_weight ∧
    (TermScorer.seek s target).1 = (s.postings.seek target).1 ∧
    (TermScorer.seek s target).2.postings = (s.postings.seek target).2 ∧
    (TermScorer.seek s target).2.fieldnorm_reader = s.fieldnorm_reader ∧
    (TermScorer.seek s target).2.similarity_weight = s.similarity_weight ∧
    TermScorer.doc s = s.postings.doc ∧
    TermScorer.size_hint s = s.postings.size_hint :=
  ⟨rfl, rfl, rfl, rfl, rfl, rfl, rfl, rfl, rfl, rfl⟩

/-- CLAIM C9: scoring is deterministic and side-effect free: `score()` leaves
the scorer unchanged, a second call returns the same value, and the observable
state (`doc`, `term_freq`, `fieldnorm_id`, `explain`) is untouched. -/
theorem C9_score_deterministic (s : TermScorer) :
    (TermScorer.score s).2 = s ∧
    (TermScorer.score (TermScorer.score s).2).1 = (TermScorer.score s).1 ∧
    TermScorer.explain (TermScorer.score s).2 = TermScorer.explain s ∧
    TermScorer.doc (TermScorer.score s).2 = TermScorer.doc s ∧
    TermScorer.term_freq (TermScorer.score s).2 = TermScorer.term_freq s ∧
    TermScorer.fieldnorm_id (TermScorer.score s).2 = TermScorer.fieldnorm_id s :=
  ⟨rfl, rfl, rfl, rfl, rfl, rfl⟩

/-- CLAIM C10: `block_max_score()` does not move the cursor: the state after
the call is the state before it, so `doc`, `term_freq` and `size_hint` are
unchanged even though the call takes the scorer by mutable reference. -/
theorem C10_block_max_score_frame (s : TermScorer) :
    (TermScorer.block_max_score s).2 = s ∧
    TermScorer.doc (TermScorer.block_max_score s).2 = TermScorer.doc s ∧
    TermScorer.term_freq (TermScorer.block_max_score s).2 = TermScorer.term_freq s ∧
    TermScorer.size_hint (TermScorer.block_max_score s).2 = TermScorer.size_hint s :=
  ⟨rfl, rfl, rfl, rfl⟩

end TantivySpec
namespace TantivySpec

/-- Helper: the BM25 term-frequency factor is strictly increasing in the term
frequency, for any fixed norm id and positive average field length. -/
theorem tfFactor_strict_mono (avg : ℚ) (fid : Nat) {t1 t2 : Nat}
    (havg : 0 < avg) (h : t1 < t2) :
    tfFactor avg fid t1 < tfFactor avg fid t2 := by
  unfold tfFactor K1 B
  set fl : ℚ := (id_to_fieldnorm fid : ℚ) with hfl_def
  have hfl : 0 ≤ fl := by positivity
  have hdiv : 0 ≤ (3 / 4 : ℚ) * fl / avg := by positivity
  have hnorm : 0 < (6 / 5 : ℚ) * (1 - 3 / 4 + 3 / 4 * fl / avg) := by nlinarith
  have ht : (t1 : ℚ) < (t2 : ℚ) := by exact_mod_cast h
  have ht1 : (0 : ℚ) ≤ (t1 : ℚ) := by positivity
  rw [div_lt_div_iff₀ (by linarith) (by linarith)]
  nlinarith [mul_pos hnorm (sub_pos.mpr ht)]

/-- Helper: the idf coefficient of a constructible weight is positive. -/
theorem for_one_term_weight_pos (df n : Nat) (avg : ℚ)
    (hdf : 1 ≤ df) (hn : df ≤ n) :
    0 < (BM25Weight.for_one_term df n avg).weight := by
  have h1 : (0 : ℝ) < (df : ℝ) + 1 / 2 := by positivity
  have h2 : (0 : ℝ) ≤ (n : ℝ) - (df : ℝ) := by
    have : (df : ℝ) ≤ (n : ℝ) := by exact_mod_cast hn
    linarith
  have h3 : (0 : ℝ) < ((n : ℝ) - (df : ℝ) + 1 / 2) / ((df : ℝ) + 1 / 2) :=
    div_pos (by linarith) h1
  show 0 < idf df n
  unfold idf
  exact Real.log_pos (by linarith)

/-- CLAIM C6: holding the norm id fixed, the score of a constructible
Relevance Weight is strictly increasing in term frequency. -/
theorem C6_score_strict_mono_in_tf (df n : Nat) (avg : ℚ) (fid tf1 tf2 : Nat)
    (hdf : 1 ≤ df) (hn : df ≤ n) (havg : 0 < avg) (htf : tf1 < tf2) :
    (BM25Weight.for_one_term df n avg).score fid tf1 <
      (BM25Weight.for_one_term df n avg).score fid tf2 := by
  have hw := for_one_term_weight_pos df n avg hdf hn
  have hq := tfFactor_strict_mono avg fid havg htf
  have hq2 : ((tfFactor avg fid tf1 : ℚ) : ℝ) < ((tfFactor avg fid tf2 : ℚ) : ℝ) := by
    exact_mod_cast hq
  have := mul_lt_mul_of_pos_left hq2 hw
  simpa [BM25Weight.score, BM25Weight.tf_factor, BM25Weight.for_one_term] using this

/-- Witness for C6 at the fixture parameters. -/
theorem C6_witness :
    (BM25Weight.for_one_term 3 6 10).score 5 2 <
      (BM25Weight.for_one_term 3 6 10).score 5 3 :=
  C6_score_strict_mono_in_tf 3 6 10 5 2 3 (by norm_num) (by norm_num) (by norm_num)
    (by norm_num)

end TantivySpec
namespace TantivySpec

/-- Helper: the fixture scorer is well formed. -/
theorem fixture_wf : fixtureScorer.wf := by
  unfold TermScorer.wf SegmentPostings.wf FieldNormReader.wf
  exact ⟨⟨by decide, by decide⟩, by decide, by decide⟩

/-- Helper: a positioned well-formed scorer has its cursor on a posting whose
document id is the current doc and whose id is within the reader's range. -/
theorem positioned_get (s : TermScorer) (hwf : s.wf)
    (hpos : TermScorer.doc s ≠ TERMINATED) :
    ∃ q, s.postings.postings.get? s.postings.cursor = some q ∧
      q ∈ s.postings.postings ∧ TermScorer.doc s = q.1 ∧
      TermScorer.term_freq s = q.2 ∧
      q.1 < s.fieldnorm_reader.norms.length := by
  rcases hwf with ⟨⟨hsort, hbound⟩, hrwf, hrange⟩
  cases hget : s.postings.postings.get? s.postings.cursor with
  | none =>
    exfalso
    apply hpos
    show SegmentPostings.doc s.postings = TERMINATED
    unfold SegmentPostings.doc
    rw [hget]
  | some q =>
    have hmem : q ∈ s.postings.postings := List.get?_mem hget
    have hdoc : TermScorer.doc s = q.1 := by
      show SegmentPostings.doc s.postings = q.1
      unfold SegmentPostings.doc
      rw [hget]
    have htf : TermScorer.term_freq s = q.2 := by
      show SegmentPostings.term_freq s.postings = q.2
      unfold SegmentPostings.term_freq
      rw [List.getD_eq_getElem?_getD, ← List.get?_eq_getElem?, hget]
      rfl
    exact ⟨q, rfl, hmem, hdoc, htf, hrange q hmem⟩

/-- CLAIM C8: when the scorer is positioned (not exhausted), `fieldnorm_id`,
`score` and `explain` all succeed: the out-of-range branch of the field-length
lookup is unreachable. -/
theorem C8_positioned_no_failure (s : TermScorer) (hwf : s.wf)
    (hpos : TermScorer.doc s ≠ TERMINATED) :
    (TermScorer.fieldnorm_id s).isSome ∧
    (TermScorer.score s).1.isSome ∧
    (TermScorer.explain s).isSome := by
  obtain ⟨q, hget, hmem, hdoc, htf, hlen⟩ := positioned_get s hwf hpos
  have hfid : (TermScorer.fieldnorm_id s).isSome := by
    unfold TermScorer.fieldnorm_id FieldNormReader.fieldnorm_id
    rw [hdoc]
    rw [Option.isSome_iff_exists]
    rcases List.get?_eq_get hlen with h
    exact ⟨_, h⟩
  refine ⟨hfid, ?_, ?_⟩
  · show ((TermScorer.fieldnorm_id s).map
      (fun fid => s.similarity_weight.score fid (TermScorer.term_freq s))).isSome
    rwa [Option.isSome_map']
  · show ((TermScorer.fieldnorm_id s).map
      (fun fid => s.similarity_weight.explain fid (TermScorer.term_freq s))).isSome
    rwa [Option.isSome_map']

/-- Witness for C8 at the reference fixture, positioned at document 2. -/
theorem C8_witness :
    (TermScorer.fieldnorm_id fixtureScorer).isSome ∧
    (TermScorer.score fixtureScorer).1.isSome ∧
    (TermScorer.explain fixtureScorer).isSome :=
  C8_positioned_no_failure fixtureScorer fixture_wf (by decide)

end TantivySpec
namespace TantivySpec

/-- Helper: the fixture's idf coefficient is exactly ln 2. -/
theorem fixtureWeight_weight : fixtureWeight.weight = Real.log 2 := by
  show idf 3 6 = Real.log 2
  unfold idf
  norm_num

/-- Helper: evaluating the fixture's rational BM25 factor. -/
theorem fixture_tf_factor (fid tf : Nat) (fl q : ℚ)
    (hfl : ((id_to_fieldnorm fid : Nat) : ℚ) = fl)
    (hq : (tf : ℚ) * (K1 + 1) / ((tf : ℚ) + K1 * (1 - B + B * fl / 10)) = q) :
    fixtureWeight.tf_factor fid tf = q := by
  show tfFactor 10 fid tf = q
  unfold tfFactor
  rw [hfl]
  exact hq

/-- Helper: a fixture score is ln 2 times the rational BM25 factor. -/
theorem fixtureWeight_score_eq (fid tf : Nat) (q : ℚ)
    (h : fixtureWeight.tf_factor fid tf = q) :
    fixtureWeight.score fid tf = Real.log 2 * (q : ℝ) := by
  unfold BM25Weight.score
  rw [fixtureWeight_weight]
  show _ * ((fixtureWeight.tf_factor fid tf : ℚ) : ℝ) = _
  rw [h]

/-- Helper: extracting the score value at a position with a known norm id. -/
theorem score_val (s : TermScorer) (fid : Nat)
    (h : TermScorer.fieldnorm_id s = some fid) :
    (TermScorer.score s).1 =
      some (s.similarity_weight.score fid (TermScorer.term_freq s)) := by
  show (TermScorer.fieldnorm_id s).map _ = _
  rw [h]
  rfl

theorem fixfactor0 : fixtureWeight.tf_factor 10 3 = 11 / 7 :=
  fixture_tf_factor 10 3 10 (11 / 7) (by norm_num [id_to_fieldnorm])
    (by unfold K1 B; push_cast; norm_num)

theorem fixfactor1 : fixtureWeight.tf_factor 12 12 = 440 / 223 :=
  fixture_tf_factor 12 12 12 (440 / 223) (by norm_num [id_to_fieldnorm])
    (by unfold K1 B; push_cast; norm_num)

theorem fixfactor2 : fixtureWeight.tf_factor 57 8 = 80 / 77 :=
  fixture_tf_factor 57 8 96 (80 / 77)
    (by have h : id_to_fieldnorm 57 = 96 := by decide
        rw [h]; norm_num)
    (by unfold K1 B; push_cast; norm_num)

theorem fixfactormax : fixtureWeight.tf_factor 255 2013265944 = 6710886480 / 3324939211 :=
  fixture_tf_factor 255 2013265944 2013265944 (6710886480 / 3324939211)
    (by have h : id_to_fieldnorm 255 = 2013265944 := by decide
        rw [h]; norm_num)
    (by unfold K1 B; push_cast; norm_num)

/-- The scorer after the first advance of the fixture. -/
noncomputable def fixtureScorer1 : TermScorer := (TermScorer.advance fixtureScorer).2

/-- The scorer after the second advance of the fixture. -/
noncomputable def fixtureScorer2 : TermScorer := (TermScorer.advance fixtureScorer1).2

theorem fix0_score : (TermScorer.score fixtureScorer).1.getD 0 =
    Real.log 2 * ((11 / 7 : ℚ) : ℝ) := by
  rw [score_val fixtureScorer 10 (by decide)]
  show fixtureWeight.score 10 3 = _
  exact fixtureWeight_score_eq 10 3 (11 / 7) fixfactor0

theorem fix1_score : (TermScorer.score fixtureScorer1).1.getD 0 =
    Real.log 2 * ((440 / 223 : ℚ) : ℝ) := by
  rw [score_val fixtureScorer1 12 (by decide)]
  show fixtureWeight.score 12 12 = _
  exact fixtureWeight_score_eq 12 12 (440 / 223) fixfactor1

theorem fix2_score : (TermScorer.score fixtureScorer2).1.getD 0 =
    Real.log 2 * ((80 / 77 : ℚ) : ℝ) := by
  rw [score_val fixtureScorer2 57 (by decide)]
  show fixtureWeight.score 57 8 = _
  exact fixtureWeight_score_eq 57 8 (80 / 77) fixfactor2

theorem fix_max : TermScorer.max_score fixtureScorer =
    Real.log 2 * ((6710886480 / 3324939211 : ℚ) : ℝ) := by
  show fixtureWeight.score 255 2013265944 = _
  exact fixtureWeight_score_eq 255 2013265944 (6710886480 / 3324939211) fixfactormax

theorem fix_blockmax : (TermScorer.block_max_score fixtureScorer).1 =
    Real.log 2 * ((440 / 223 : ℚ) : ℝ) := by
  have hl2 : (0 : ℝ) ≤ Real.log 2 := Real.log_nonneg (by norm_num)
  have hb : (TermScorer.block_max_score fixtureScorer).1 =
      max (fixtureWeight.score 10 3)
        (max (fixtureWeight.score 12 12) (max (fixtureWeight.score 57 8) 0)) := rfl
  rw [hb, fixtureWeight_score_eq 10 3 (11 / 7) fixfactor0,
    fixtureWeight_score_eq 12 12 (440 / 223) fixfactor1,
    fixtureWeight_score_eq 57 8 (80 / 77) fixfactor2]
  have c1 : ((11 / 7 : ℚ) : ℝ) ≤ ((440 / 223 : ℚ) : ℝ) := by norm_num
  have c2 : ((80 / 77 : ℚ) : ℝ) ≤ ((440 / 223 : ℚ) : ℝ) := by norm_num
  have c3 : (0 : ℝ) ≤ ((80 / 77 : ℚ) : ℝ) := by norm_num
  rw [max_eq_left (mul_nonneg hl2 c3),
    max_eq_left (mul_le_mul_of_nonneg_left c2 hl2),
    max_eq_right (mul_le_mul_of_nonneg_left c1 hl2)]

end TantivySpec
namespace TantivySpec

/-- CLAIM C3: the reference fixture (document frequency 3, corpus size 6,
average field length 10, postings (2,3),(3,12),(7,8), lengths 10,12,100)
reproduces the expected numbers: max_score about 1.3990127; at doc 2
block_max_score about 1.3676447 and score about 1.0892314; after an advance,
doc 3 and score about 1.3676447; after another, doc 7 and score about
0.72015285; a further advance returns the sentinel. -/
theorem C3_reference_fixture :
    |TermScorer.max_score fixtureScorer - 1.3990127| < 0.001 ∧
    TermScorer.doc fixtureScorer = 2 ∧
    TermScorer.term_freq fixtureScorer = 3 ∧
    |(TermScorer.block_max_score fixtureScorer).1 - 1.3676447| < 0.001 ∧
    |(TermScorer.score fixtureScorer).1.getD 0 - 1.0892314| < 0.001 ∧
    (TermScorer.advance fixtureScorer).1 = 3 ∧
    TermScorer.doc fixtureScorer1 = 3 ∧
    TermScorer.term_freq fixtureScorer1 = 12 ∧
    |(TermScorer.score fixtureScorer1).1.getD 0 - 1.3676447| < 0.001 ∧
    (TermScorer.advance fixtureScorer1).1 = 7 ∧
    TermScorer.doc fixtureScorer2 = 7 ∧
    TermScorer.term_freq fixtureScorer2 = 8 ∧
    |(TermScorer.score fixtureScorer2).1.getD 0 - 0.72015285| < 0.001 ∧
    (TermScorer.advance fixtureScorer2).1 = TERMINATED := by
  have hlo := Real.log_two_gt_d9
  have hhi := Real.log_two_lt_d9
  refine ⟨?_, by decide, by decide, ?_, ?_, by decide, by decide, by decide, ?_,
    by decide, by decide, by decide, ?_, by decide⟩
  · rw [fix_max, show ((6710886480 / 3324939211 : ℚ) : ℝ) = 6710886480 / 3324939211 by
      norm_num, abs_lt]
    constructor <;> nlinarith
  · rw [fix_blockmax, show ((440 / 223 : ℚ) : ℝ) = 440 / 223 by norm_num, abs_lt]
    constructor <;> nlinarith
  · rw [fix0_score, show ((11 / 7 : ℚ) : ℝ) = 11 / 7 by norm_num, abs_lt]
    constructor <;> nlinarith
  · rw [fix1_score, show ((440 / 223 : ℚ) : ℝ) = 440 / 223 by norm_num, abs_lt]
    constructor <;> nlinarith
  · rw [fix2_score, show ((80 / 77 : ℚ) : ℝ) = 80 / 77 by norm_num, abs_lt]
    constructor <;> nlinarith

end TantivySpec
namespace TantivySpec

set_option maxRecDepth 4096 in
/-- Helper: every byte-ranged norm id decodes to at most the table maximum. -/
theorem id_to_fieldnorm_le_max {fid : Nat} (h : fid ≤ 255) :
    id_to_fieldnorm fid ≤ 2013265944 := by
  have hall : ∀ i : Fin 256, id_to_fieldnorm i.val ≤ 2013265944 := by decide
  exact hall ⟨fid, Nat.lt_succ_of_le h⟩

/-- Helper: the BM25 factor at a document whose term frequency is at least one
and at most its decoded fieldnorm is bounded by the factor at the maximal
fieldnorm with term frequency equal to it. -/
theorem tfFactor_le_maxFactor (avg : ℚ) (fid tf : Nat) (havg : 0 < avg)
    (h1 : 1 ≤ tf) (h2 : (tf : ℚ) ≤ ((id_to_fieldnorm fid : Nat) : ℚ))
    (h3 : ((id_to_fieldnorm fid : Nat) : ℚ) ≤ 2013265944) :
    tfFactor avg fid tf ≤ tfFactor avg 255 2013265944 := by
  have hdec : id_to_fieldnorm 255 = 2013265944 := by decide
  unfold tfFactor K1 B
  rw [hdec]
  push_cast
  have ht1 : (1 : ℚ) ≤ (tf : ℚ) := by exact_mod_cast h1
  have htF : (tf : ℚ) ≤ 2013265944 := le_trans h2 h3
  have hflnn : (0 : ℚ) ≤ ((id_to_fieldnorm fid : Nat) : ℚ) := by positivity
  have hu : (0 : ℚ) < avg⁻¹ := inv_pos.mpr havg
  have hdiv1 : (0 : ℚ) ≤ 3 / 4 * ((id_to_fieldnorm fid : Nat) : ℚ) / avg := by positivity
  have hdiv2 : (0 : ℚ) ≤ 3 / 4 * (2013265944 : ℚ) / avg := by positivity
  have hden1 : (0 : ℚ) < (tf : ℚ) +
      6 / 5 * (1 - 3 / 4 + 3 / 4 * ((id_to_fieldnorm fid : Nat) : ℚ) / avg) := by
    nlinarith
  have hden2 : (0 : ℚ) <
      (2013265944 : ℚ) + 6 / 5 * (1 - 3 / 4 + 3 / 4 * (2013265944 : ℚ) / avg) := by
    nlinarith
  rw [div_le_div_iff₀ hden1 hden2]
  have hkey : (tf : ℚ) * 2013265944 * avg⁻¹ ≤
      ((id_to_fieldnorm fid : Nat) : ℚ) * 2013265944 * avg⁻¹ :=
    mul_le_mul_of_nonneg_right
      (mul_le_mul_of_nonneg_right h2 (by norm_num)) (le_of_lt hu)
  simp only [div_eq_mul_inv]
  nlinarith [hkey, htF]

/-- Helper: an element of a list is bounded by its max fold. -/
theorem le_foldr_max {x : ℝ} {l : List ℝ} (h : x ∈ l) : x ≤ l.foldr max 0 := by
  induction l with
  | nil => cases h
  | cons a l ih =>
    rcases List.mem_cons.mp h with h1 | h2
    · rw [h1]
      exact le_max_left _ _
    · exact le_trans (ih h2) (le_max_right _ _)

/-- Helper: the max fold of a list is bounded by any nonnegative common bound. -/
theorem foldr_max_le {c : ℝ} {l : List ℝ} (hc : 0 ≤ c) (h : ∀ x ∈ l, x ≤ c) :
    l.foldr max 0 ≤ c := by
  induction l with
  | nil => simpa using hc
  | cons a l ih =>
    have ha := h a (List.mem_cons_self a l)
    have hrest := ih (fun x hx => h x (List.mem_cons_of_mem a hx))
    simpa using max_le ha hrest

/-- Helper: a score with term frequency between one and the decoded fieldnorm
never exceeds the weight's global bound. -/
theorem score_le_max_score (w : BM25Weight) (fid tf : Nat)
    (hw : 0 ≤ w.weight) (havg : 0 < w.average_fieldnorm)
    (hfid : fid ≤ 255) (h1 : 1 ≤ tf) (h2 : tf ≤ id_to_fieldnorm fid) :
    w.score fid tf ≤ w.max_score := by
  have h3 := id_to_fieldnorm_le_max hfid
  have hq : w.tf_factor fid tf ≤ w.tf_factor 255 2013265944 :=
    tfFactor_le_maxFactor w.average_fieldnorm fid tf havg h1 (by exact_mod_cast h2)
      (by exact_mod_cast h3)
  have hq2 : ((w.tf_factor fid tf : ℚ) : ℝ) ≤ ((w.tf_factor 255 2013265944 : ℚ) : ℝ) := by
    exact_mod_cast hq
  exact mul_le_mul_of_nonneg_left hq2 hw

/-- Helper: the global bound itself is nonnegative. -/
theorem max_score_nonneg (w : BM25Weight) (hw : 0 ≤ w.weight)
    (havg : 0 < w.average_fieldnorm) : 0 ≤ w.max_score := by
  have hfac : (0 : ℚ) ≤ w.tf_factor 255 2013265944 := by
    unfold BM25Weight.tf_factor tfFactor K1 B
    apply div_nonneg
    · positivity
    · have hd : (0 : ℚ) ≤
          3 / 4 * ((id_to_fieldnorm 255 : Nat) : ℚ) / w.average_fieldnorm := by
        positivity
      nlinarith
  apply mul_nonneg hw
  exact_mod_cast hfac

/-- Helper: the posting under the cursor belongs to the current decode block. -/
theorem cursor_mem_blockSlice (p : SegmentPostings) (q : Nat × Nat)
    (h : p.postings.get? p.cursor = some q) : q ∈ blockSlice p := by
  unfold blockSlice COMPRESSION_BLOCK_SIZE
  have hmod : p.cursor % 128 < 128 := Nat.mod_lt _ (by norm_num)
  have heq : p.cursor / 128 * 128 + p.cursor % 128 = p.cursor := by
    omega
  have hidx : ((p.postings.drop (p.cursor / 128 * 128)).take 128).get?
      (p.cursor % 128) = some q := by
    rw [List.get?_take hmod, List.get?_drop, heq]
    exact h
  exact List.get?_mem hidx

end TantivySpec
namespace TantivySpec

/-- CLAIM C2 (amended): for a positioned well-formed scorer with nonnegative
idf coefficient and positive average field length, and whose postings all have
a term frequency between one and the document's decoded fieldnorm, the score
at the current document is at most the block's max score, which is at most the
global max score. -/
theorem C2_amended_bound_chain (s : TermScorer)
    (hwf : s.wf) (hpos : TermScorer.doc s ≠ TERMINATED)
    (hw : 0 ≤ s.similarity_weight.weight)
    (havg : 0 < s.similarity_weight.average_fieldnorm)
    (htf : ∀ q ∈ s.postings.postings, 1 ≤ q.2 ∧
      q.2 ≤ id_to_fieldnorm ((s.fieldnorm_reader.fieldnorm_id q.1).getD 0)) :
    (TermScorer.score s).1.getD 0 ≤ (TermScorer.block_max_score s).1 ∧
    (TermScorer.block_max_score s).1 ≤ TermScorer.max_score s := by
  obtain ⟨q, hget, hmem, hdoc, htfq, hlen⟩ := positioned_get s hwf hpos
  have hbm : (TermScorer.block_max_score s).1 =
      ((blockSlice s.postings).map
        (fun q2 => s.similarity_weight.score
          ((s.fieldnorm_reader.fieldnorm_id q2.1).getD 0) q2.2)).foldr max 0 := rfl
  have hslice : blockSlice s.postings ⊆ s.postings.postings := by
    unfold blockSlice
    exact fun x hx => List.drop_subset _ _ (List.take_subset _ _ hx)
  constructor
  · have hqblock : q ∈ blockSlice s.postings := cursor_mem_blockSlice s.postings q hget
    have hn : s.fieldnorm_reader.norms.get? q.1 =
        some (s.fieldnorm_reader.norms.get ⟨q.1, hlen⟩) := List.get?_eq_get hlen
    have hfid : TermScorer.fieldnorm_id s =
        some (s.fieldnorm_reader.norms.get ⟨q.1, hlen⟩) := by
      unfold TermScorer.fieldnorm_id FieldNormReader.fieldnorm_id
      rw [hdoc]
      exact hn
    have hfid2 : (s.fieldnorm_reader.fieldnorm_id q.1).getD 0 =
        s.fieldnorm_reader.norms.get ⟨q.1, hlen⟩ := by
      unfold FieldNormReader.fieldnorm_id
      rw [hn]
      rfl
    have hval : (TermScorer.score s).1.getD 0 =
        s.similarity_weight.score (s.fieldnorm_reader.norms.get ⟨q.1, hlen⟩) q.2 := by
      rw [score_val s _ hfid, htfq]
      rfl
    have hmemmap := List.mem_map_of_mem
      (fun q2 => s.similarity_weight.score
        ((s.fieldnorm_reader.fieldnorm_id q2.1).getD 0) q2.2) hqblock
    rw [hval, hbm, ← hfid2]
    exact le_foldr_max hmemmap
  · rw [hbm]
    apply foldr_max_le (max_score_nonneg s.similarity_weight hw havg)
    intro x hx
    rcases List.mem_map.mp hx with ⟨q2, hq2mem, rfl⟩
    have hq2post : q2 ∈ s.postings.postings := hslice hq2mem
    obtain ⟨h1, h2⟩ := htf q2 hq2post
    have hfid255 : (s.fieldnorm_reader.fieldnorm_id q2.1).getD 0 ≤ 255 := by
      rcases hwf with ⟨_, hrwf, _⟩
      unfold FieldNormReader.fieldnorm_id
      cases hg : s.fieldnorm_reader.norms.get? q2.1 with
      | none => simp
      | some m =>
        have := hrwf m (List.get?_mem hg)
        simpa using this
    exact score_le_max_score s.similarity_weight _ q2.2 hw havg hfid255 h1 h2

/-- Witness for the amended C2 at the reference fixture. -/
theorem C2_witness :
    (TermScorer.score fixtureScorer).1.getD 0 ≤
      (TermScorer.block_max_score fixtureScorer).1 ∧
    (TermScorer.block_max_score fixtureScorer).1 ≤
      TermScorer.max_score fixtureScorer :=
  C2_amended_bound_chain fixtureScorer fixture_wf (by decide)
    (by show (0 : ℝ) ≤ fixtureWeight.weight
        rw [fixtureWeight_weight]
        exact Real.log_nonneg (by norm_num))
    (by show (0 : ℚ) < 10
        norm_num)
    (by decide)

/-- A scorer whose single posting has a term frequency far exceeding its
document's decoded fieldnorm. -/
noncomputable def cexScorer : TermScorer :=
  TermScorer.create_for_test [(0, 1000000000)] [0] fixtureWeight

/-- CLAIM C2 is false as stated: at a constructible scorer (document frequency
3, corpus size 6, average length 10, one posting with term frequency 10^9 in a
zero-length field) the block max score strictly exceeds the global max score,
so the claimed chain fails. -/
theorem C2_counterexample :
    ¬ ((TermScorer.score cexScorer).1.getD 0 ≤
        (TermScorer.block_max_score cexScorer).1 ∧
       (TermScorer.block_max_score cexScorer).1 ≤
        TermScorer.max_score cexScorer) := by
  intro hc
  have hl2 : (0 : ℝ) < Real.log 2 := Real.log_pos (by norm_num)
  have hsc : fixtureWeight.score 0 1000000000 =
      Real.log 2 * ((22000000000 / 10000000003 : ℚ) : ℝ) :=
    fixtureWeight_score_eq 0 1000000000 (22000000000 / 10000000003)
      (fixture_tf_factor 0 1000000000 0 (22000000000 / 10000000003)
        (by norm_num [id_to_fieldnorm])
        (by unfold K1 B; push_cast; norm_num))
  have hbm : (TermScorer.block_max_score cexScorer).1 =
      max (fixtureWeight.score 0 1000000000) 0 := rfl
  have hscnn : (0 : ℝ) ≤ fixtureWeight.score 0 1000000000 := by
    rw [hsc]
    exact mul_nonneg (le_of_lt hl2) (by norm_num)
  have hmax : TermScorer.max_score cexScorer =
      Real.log 2 * ((6710886480 / 3324939211 : ℚ) : ℝ) := by
    show fixtureWeight.score 255 2013265944 = _
    exact fixtureWeight_score_eq 255 2013265944 _ fixfactormax
  have h2 := hc.2
  rw [hbm, max_eq_left hscnn, hsc, hmax] at h2
  have hqlt : ((6710886480 / 3324939211 : ℚ) : ℝ) <
      ((22000000000 / 10000000003 : ℚ) : ℝ) := by
    norm_num
  nlinarith [h2, hqlt, hl2, mul_pos hl2 (sub_pos.mpr hqlt)]

end TantivySpec
namespace TantivySpec

/-- Helper: the current doc is either the posting under the cursor or the
sentinel. -/
theorem doc_eq_cases (p : SegmentPostings) :
    (∃ q, p.postings.get? p.cursor = some q ∧ p.doc = q.1) ∨
    (p.postings.get? p.cursor = none ∧ p.doc = TERMINATED) := by
  unfold SegmentPostings.doc
  cases hg : p.postings.get? p.cursor with
  | none => exact Or.inr ⟨rfl, rfl⟩
  | some q => exact Or.inl ⟨q, rfl, rfl⟩

/-- Helper: with in-range document ids, the current doc never exceeds the
sentinel. -/
theorem doc_le_TERMINATED (p : SegmentPostings)
    (hb : ∀ q ∈ p.postings, q.1 < TERMINATED) : p.doc ≤ TERMINATED := by
  rcases doc_eq_cases p with ⟨q, hg, hd⟩ | ⟨hg, hd⟩
  · rw [hd]
    exact le_of_lt (hb q (List.get?_mem hg))
  · rw [hd]

/-- Helper: on a sorted bounded postings list, the current doc is monotone in
the cursor. -/
theorem doc_mono (l : List (Nat × Nat))
    (hs : List.Pairwise (fun a b => a.1 < b.1) l)
    (hb : ∀ q ∈ l, q.1 < TERMINATED) {i j : Nat} (hij : i ≤ j) :
    SegmentPostings.doc ⟨l, i⟩ ≤ SegmentPostings.doc ⟨l, j⟩ := by
  rcases doc_eq_cases ⟨l, j⟩ with ⟨qj, hgj, hdj⟩ | ⟨hgj, hdj⟩
  · have hjlen : j < l.length := by
      by_contra hle
      rw [List.get?_eq_none.mpr (le_of_not_lt hle)] at hgj
      cases hgj
    have hilen : i < l.length := lt_of_le_of_lt hij hjlen
    rcases doc_eq_cases ⟨l, i⟩ with ⟨qi, hgi, hdi⟩ | ⟨hgi, hdi⟩
    · have hqi : qi = l.get ⟨i, hilen⟩ := by
        have h2 := List.get?_eq_get hilen (l := l)
        rw [hgi] at h2
        exact Option.some_inj.mp h2
      have hqj : qj = l.get ⟨j, hjlen⟩ := by
        have h2 := List.get?_eq_get hjlen (l := l)
        rw [hgj] at h2
        exact Option.some_inj.mp h2
      rw [hdi, hdj, hqi, hqj]
      rcases Nat.lt_or_ge i j with hlt | hge
      · exact le_of_lt (List.pairwise_iff_get.mp hs ⟨i, hilen⟩ ⟨j, hjlen⟩ hlt)
      · have hij2 : i = j := le_antisymm hij hge
        subst hij2
        exact le_refl _
    · rw [List.get?_eq_none] at hgi
      have hgi2 : l.length ≤ i := hgi
      omega
  · rw [hdj]
    exact doc_le_TERMINATED ⟨l, i⟩ hb

/-- Helper: a step keeps the postings list, the reader and the weight, never
moves the cursor backwards, and returns the doc of the new state. -/
theorem step_state (s : TermScorer) (op : Op) :
    (TermScorer.step s op).2.postings.postings = s.postings.postings ∧
    s.postings.cursor ≤ (TermScorer.step s op).2.postings.cursor ∧
    (TermScorer.step s op).1 = TermScorer.doc (TermScorer.step s op).2 ∧
    (TermScorer.step s op).2.fieldnorm_reader = s.fieldnorm_reader ∧
    (TermScorer.step s op).2.similarity_weight = s.similarity_weight := by
  cases op with
  | advance =>
    refine ⟨rfl, ?_, rfl, rfl, rfl⟩
    show s.postings.cursor ≤ (if s.postings.cursor < s.postings.postings.length
      then s.postings.cursor + 1 else s.postings.cursor)
    split <;> omega
  | seek t =>
    exact ⟨rfl, Nat.le_add_right _ _, rfl, rfl, rfl⟩

/-- Helper: steps preserve well-formedness. -/
theorem step_wf (s : TermScorer) (op : Op) (hwf : s.wf) :
    (TermScorer.step s op).2.wf := by
  obtain ⟨h1, h2, h3⟩ := hwf
  obtain ⟨hpost, _, _, hrd, _⟩ := step_state s op
  unfold TermScorer.wf SegmentPostings.wf at *
  rw [hpost, hrd]
  exact ⟨h1, h2, h3⟩

/-- Helper: the doc of a scorer with the same postings list and a cursor not
before the first one is not smaller. -/
theorem scorer_doc_mono (s s2 : TermScorer)
    (hl : s2.postings.postings = s.postings.postings)
    (hc : s.postings.cursor ≤ s2.postings.cursor)
    (hs : List.Pairwise (fun a b => a.1 < b.1) s.postings.postings)
    (hb : ∀ q ∈ s.postings.postings, q.1 < TERMINATED) :
    TermScorer.doc s ≤ TermScorer.doc s2 := by
  show SegmentPostings.doc ⟨s.postings.postings, s.postings.cursor⟩ ≤
    SegmentPostings.doc ⟨s2.postings.postings, s2.postings.cursor⟩
  rw [hl]
  exact doc_mono s.postings.postings hs hb hc

/-- Helper: outputs of a run form a non-decreasing chain headed by the initial
doc. -/
theorem runOutputs_chain (s : TermScorer) (ops : List Op) (hwf : s.wf) :
    List.Chain' (fun a b => a ≤ b) (TermScorer.doc s :: runOutputs s ops) := by
  induction ops generalizing s with
  | nil => simp [runOutputs]
  | cons op rest ih =>
    obtain ⟨hl, hc, hout, hrd, _⟩ := step_state s op
    have hwf2 := step_wf s op hwf
    obtain ⟨⟨hs, hb⟩, _, _⟩ := hwf
    have hdm : TermScorer.doc s ≤ TermScorer.doc (TermScorer.step s op).2 :=
      scorer_doc_mono s (TermScorer.step s op).2 hl hc hs hb
    have hchain := ih (TermScorer.step s op).2 hwf2
    show List.Chain' (fun a b => a ≤ b)
      (TermScorer.doc s ::
        (TermScorer.step s op).1 :: runOutputs (TermScorer.step s op).2 rest)
    rw [hout]
    exact List.chain'_cons.mpr ⟨hdm, hchain⟩

/-- Helper: every output of a run is bounded by the sentinel. -/
theorem runOutputs_le (s : TermScorer) (ops : List Op) (hwf : s.wf) :
    ∀ d ∈ runOutputs s ops, d ≤ TERMINATED := by
  induction ops generalizing s with
  | nil =>
    intro d hd
    simp [runOutputs] at hd
  | cons op rest ih =>
    intro d hd
    obtain ⟨hl, hc, hout, hrd, _⟩ := step_state s op
    have hwf2 := step_wf s op hwf
    have hd2 : d ∈ (TermScorer.step s op).1 ::
        runOutputs (TermScorer.step s op).2 rest := hd
    rcases List.mem_cons.mp hd2 with h1 | h2
    · rw [h1, hout]
      exact doc_le_TERMINATED (TermScorer.step s op).2.postings hwf2.1.2
    · exact ih (TermScorer.step s op).2 hwf2 d h2

/-- CLAIM C4 (amended): for any sequence of advance/seek calls on a
well-formed scorer the returned document ids are non-decreasing; once the
sentinel is returned every later output is the sentinel again; and an
`advance` from a non-exhausted position returns a document id strictly larger
than the current one (a `seek` whose target does not exceed the current
document id may return the current document id again). -/
theorem C4_amended_monotone_iteration (s : TermScorer) (ops : List Op)
    (hwf : s.wf) :
    List.Chain' (fun a b => a ≤ b) (runOutputs s ops) ∧
    (∀ i j (hi : i < (runOutputs s ops).length)
      (hj : j < (runOutputs s ops).length), i ≤ j →
      (runOutputs s ops).get ⟨i, hi⟩ = TERMINATED →
      (runOutputs s ops).get ⟨j, hj⟩ = TERMINATED) ∧
    (∀ t : TermScorer, t.wf → TermScorer.doc t ≠ TERMINATED →
      TermScorer.doc t < (TermScorer.advance t).1) := by
  refine ⟨(runOutputs_chain s ops hwf).tail, ?_, ?_⟩
  · intro i j hi hj hij hiT
    have hpair : List.Pairwise (fun a b => a ≤ b) (runOutputs s ops) :=
      List.chain'_iff_pairwise.mp (runOutputs_chain s ops hwf).tail
    rcases eq_or_lt_of_le hij with heq | hlt
    · subst heq
      exact hiT
    · have hle := List.pairwise_iff_get.mp hpair ⟨i, hi⟩ ⟨j, hj⟩ hlt
      have hub := runOutputs_le s ops hwf ((runOutputs s ops).get ⟨j, hj⟩)
        (List.get_mem (runOutputs s ops) j hj)
      rw [hiT] at hle
      exact le_antisymm hub hle
  · intro t hwt hpos
    obtain ⟨q, hget, hmem, hdoc, _, _⟩ := positioned_get t hwt hpos
    obtain ⟨⟨hs, hb⟩, _, _⟩ := hwt
    have hclen : t.postings.cursor < t.postings.postings.length := by
      by_contra h
      rw [List.get?_eq_none.mpr (le_of_not_lt h)] at hget
      cases hget
    have h1 : (TermScorer.advance t).1 =
        SegmentPostings.doc ⟨t.postings.postings, t.postings.cursor + 1⟩ := by
      show SegmentPostings.doc ⟨t.postings.postings,
        if t.postings.cursor < t.postings.postings.length
          then t.postings.cursor + 1 else t.postings.cursor⟩ = _
      rw [if_pos hclen]
    rcases doc_eq_cases ⟨t.postings.postings, t.postings.cursor + 1⟩ with
      ⟨q2, hg2, hd2⟩ | ⟨hg2, hd2⟩
    · have h2len : t.postings.cursor + 1 < t.postings.postings.length := by
        by_contra h
        rw [List.get?_eq_none.mpr (le_of_not_lt h)] at hg2
        cases hg2
      have hqi : q = t.postings.postings.get ⟨t.postings.cursor, hclen⟩ := by
        have h3 := List.get?_eq_get hclen (l := t.postings.postings)
        rw [hget] at h3
        exact Option.some_inj.mp h3
      have hqj : q2 = t.postings.postings.get ⟨t.postings.cursor + 1, h2len⟩ := by
        have h3 := List.get?_eq_get h2len (l := t.postings.postings)
        rw [hg2] at h3
        exact Option.some_inj.mp h3
      rw [hdoc, h1, hd2, hqi, hqj]
      exact List.pairwise_iff_get.mp hs ⟨_, hclen⟩ ⟨_, h2len⟩ (Nat.lt_succ_self _)
    · rw [hdoc, h1, hd2]
      exact hb q hmem

/-- Witness for the amended C4: two advances on the reference fixture. -/
theorem C4_witness :
    List.Chain' (fun a b => a ≤ b)
      (runOutputs fixtureScorer [Op.advance, Op.advance]) ∧
    (∀ i j (hi : i < (runOutputs fixtureScorer [Op.advance, Op.advance]).length)
      (hj : j < (runOutputs fixtureScorer [Op.advance, Op.advance]).length),
      i ≤ j →
      (runOutputs fixtureScorer [Op.advance, Op.advance]).get ⟨i, hi⟩ = TERMINATED →
      (runOutputs fixtureScorer [Op.advance, Op.advance]).get ⟨j, hj⟩ = TERMINATED) ∧
    (∀ t : TermScorer, t.wf → TermScorer.doc t ≠ TERMINATED →
      TermScorer.doc t < (TermScorer.advance t).1) :=
  C4_amended_monotone_iteration fixtureScorer [Op.advance, Op.advance] fixture_wf

/-- CLAIM C4 is false as stated: two `seek 2` calls on the reference fixture
both return document 2 while the sentinel has not been returned, so the
returned ids are neither strictly increasing nor duplicate-free. -/
theorem C4_counterexample :
    runOutputs fixtureScorer [Op.seek 2, Op.seek 2] = [2, 2] ∧
    ¬ List.Chain' (fun a b => a < b)
      (runOutputs fixtureScorer [Op.seek 2, Op.seek 2]) ∧
    TERMINATED ∉ runOutputs fixtureScorer [Op.seek 2, Op.seek 2] := by
  have h1 : runOutputs fixtureScorer [Op.seek 2, Op.seek 2] = [2, 2] := by decide
  refine ⟨h1, ?_, by decide⟩
  rw [h1]
  intro h
  exact lt_irrefl 2 (List.chain'_cons.mp h).1

end TantivySpec
